import Mathlib

/-!
Verification development for the PDF content extractor.

The program (pdf_content_extractor.py) extracts per-page content from a PDF
with one of two backends (PyMuPDF, called the rasterizing variant, and
pdfplumber, called the geometry-only variant) and then segments the page text
stream into question records with a keyword heuristic.

Strings are embedded as lists of characters; Python str.strip, str.lower,
str.split and the substring test are embedded as the corresponding list
functions.  Fallible operations (page loading, image decoding) carry explicit
success flags, and the extraction functions return an outcome that records
whether the document handle was closed before returning.
-/

namespace PdfExtractor

/-- Whitespace test used by the embedding of Python str.strip. -/
def ws (c : Char) : Bool := c.isWhitespace

/-- Embedding of Python str.strip: drop whitespace from both ends. -/
def strip (l : List Char) : List Char := List.rdropWhile ws (List.dropWhile ws l)

/-- Embedding of Python str.lower (the source text is ASCII). -/
def lowerStr (l : List Char) : List Char := l.map Char.toLower

/-- Embedding of the Python substring test: needle, haystack. -/
def isSubstring : List Char → List Char → Bool
  | needle, [] => needle.isEmpty
  | needle, c :: t => needle.isPrefixOf (c :: t) || isSubstring needle t

/-- Embedding of text.split with a newline separator (line 214 of the source). -/
def splitLines (l : List Char) : List (List Char) := l.splitOn '\n'

/-- The decimal digit character for a digit value below ten. -/
def digitChar (d : Nat) : Char := Char.ofNat (48 + d)

/-- Decimal rendering of a natural number, as produced by the Python
format strings building image file names. -/
def decRepr (n : Nat) : List Char :=
  if _h : n < 10 then [digitChar n]
  else decRepr (n / 10) ++ [digitChar (n % 10)]
termination_by n
decreasing_by
  exact Nat.div_lt_self (by omega) (by omega)

/-- Numeric value of a decimal digit string, used to invert decRepr. -/
def decVal (l : List Char) : Nat := l.foldl (fun a c => a * 10 + (c.toNat - 48)) 0

/-- The fixed trigger keyword set of parse_math_questions (line 227). -/
def triggerKeywords : List (List Char) :=
  ["question".data, "what".data, "which".data, "find".data, "solve".data,
   "calculate".data]

/-- Line 227 of the source: any keyword occurring anywhere in the
lowercased line qualifies. -/
def hasTrigger (line : List Char) : Bool :=
  triggerKeywords.any (fun k => isSubstring k (lowerStr line))

/-- Geometry descriptor built by extract_with_pdfplumber (lines 170-177). -/
structure GeomInfo where
  x0 : Rat
  y0 : Rat
  x1 : Rat
  y1 : Rat
  width : Rat
  height : Rat
deriving DecidableEq

/-- A page record as built by either extraction variant.  The PyMuPDF
variant stores image file paths in images and no image_metadata key; the
pdfplumber variant stores an empty images list and the geometry
descriptors under image_metadata (modelled as an Option). -/
structure PageRecord where
  page_number : Nat
  text : List Char
  images : List (List Char)
  image_metadata : Option (List GeomInfo)
  image_count : Nat
deriving DecidableEq

/-- A raw embedded image reference inside a PyMuPDF page: the channel
count and alpha flag of its pixmap, plus a success flag standing for the
whole decode, convert and save sequence inside the try block of
lines 104-121 (any exception there is modelled by ok being false). -/
structure RawImage where
  n : Nat
  alpha : Nat
  ok : Bool
deriving DecidableEq

/-- One page as seen through PyMuPDF.  textOk models whether load_page
and get_text succeed; a false value stands for an exception raised
outside the per-image try block. -/
structure PymupdfPage where
  text : List Char
  textOk : Bool
  images : List RawImage
deriving DecidableEq

/-- Encoding format of a saved image; pix.save with a .png file name
always writes a PNG. -/
inductive ImgFormat
  | png
deriving DecidableEq

/-- A successfully materialized raster image. -/
structure SavedImage where
  path : List Char
  convertedToRGB : Bool
  format : ImgFormat
deriving DecidableEq

/-- The file name built at line 113: page_{page_num+1}_image_{img_index+1}.png
with 0-based loop counters, hence 1-based name components. -/
def imgName (page_num img_index : Nat) : List Char :=
  "page_".data ++ decRepr (page_num + 1) ++ "_image_".data
    ++ decRepr (img_index + 1) ++ ".png".data

/-- The saved path images_dir/<name> built at line 114. -/
def imgPath (images_dir : List Char) (page_num img_index : Nat) : List Char :=
  images_dir ++ '/' :: imgName page_num img_index

/-- Embedding of the body of the per-image try block (lines 104-121):
decode the pixmap, convert to RGB when the channel count minus the alpha
flag exceeds 3, save as PNG under the deterministic name.  A failure
anywhere in the block yields none, the skip case of the handler at
line 122. -/
def materialize (images_dir : List Char) (page_num img_index : Nat)
    (img : RawImage) : Option SavedImage :=
  if img.ok then
    some { path := imgPath images_dir page_num img_index
           convertedToRGB := decide ((img.n : Int) - (img.alpha : Int) > 3)
           format := ImgFormat.png }
  else none

/-- The per-page image loop of lines 103-123: enumerate the embedded
images, append the saved path on success, skip on failure. -/
def pymupdfPageImages (images_dir : List Char) (page_num : Nat) :
    Nat → List RawImage → List (List Char)
  | _, [] => []
  | img_index, img :: rest =>
    match materialize images_dir page_num img_index img with
    | some s => s.path :: pymupdfPageImages images_dir page_num (img_index + 1) rest
    | none => pymupdfPageImages images_dir page_num (img_index + 1) rest

/-- The page_info dictionary of lines 126-131. -/
def mkPymupdfRecord (images_dir : List Char) (page_num : Nat)
    (p : PymupdfPage) : PageRecord :=
  let page_images := pymupdfPageImages images_dir page_num 0 p.images
  { page_number := page_num + 1
    text := strip p.text
    images := page_images
    image_metadata := none
    image_count := page_images.length }

/-- The page loop of lines 94-132: a page whose loading or text
extraction raises aborts the whole call (the partial list is lost). -/
def pymupdfLoop (images_dir : List Char) :
    Nat → List PymupdfPage → Except Unit (List PageRecord)
  | _, [] => Except.ok []
  | page_num, p :: ps =>
    if p.textOk then
      match pymupdfLoop images_dir (page_num + 1) ps with
      | Except.ok rest => Except.ok (mkPymupdfRecord images_dir page_num p :: rest)
      | Except.error e => Except.error e
    else Except.error ()

/-- The record list produced when every page of the suffix succeeds. -/
def pymupdfRecords (images_dir : List Char) :
    Nat → List PymupdfPage → List PageRecord
  | _, [] => []
  | page_num, p :: ps =>
    mkPymupdfRecord images_dir page_num p :: pymupdfRecords images_dir (page_num + 1) ps

/-- Outcome of one extraction call: the returned value or the propagated
exception, plus whether doc.close() ran before the call ended. -/
structure ExtractOutcome where
  result : Except Unit (List PageRecord)
  closed : Bool

/-- Embedding of extract_with_pymupdf (lines 90-140).  doc.close() at
line 134 runs only after the page loop finishes; the handler at
line 138 logs and re-raises without closing, so an error path leaves the
handle open. -/
def extract_with_pymupdf (images_dir : List Char)
    (pages : List PymupdfPage) : ExtractOutcome :=
  match pymupdfLoop images_dir 0 pages with
  | Except.ok recs => { result := Except.ok recs, closed := true }
  | Except.error e => { result := Except.error e, closed := false }

/-- An image dictionary as reported by pdfplumber; each coordinate key
may be absent (img.get with default 0 at lines 171-176). -/
structure PlumberImage where
  x0 : Option Rat
  y0 : Option Rat
  x1 : Option Rat
  y1 : Option Rat
  width : Option Rat
  height : Option Rat
deriving DecidableEq

/-- Lines 170-177: read each coordinate with default 0. -/
def mkGeomInfo (img : PlumberImage) : GeomInfo :=
  { x0 := img.x0.getD 0
    y0 := img.y0.getD 0
    x1 := img.x1.getD 0
    y1 := img.y1.getD 0
    width := img.width.getD 0
    height := img.height.getD 0 }

/-- One page as seen through pdfplumber.  text is None when
extract_text returns nothing (line 163); pageOk models whether the
per-page calls succeed. -/
structure PlumberPage where
  text : Option (List Char)
  pageOk : Bool
  images : List PlumberImage
deriving DecidableEq

/-- The page_info dictionary of lines 180-186: the images key is the
empty list and the geometry goes into image_metadata. -/
def mkPlumberRecord (page_num : Nat) (p : PlumberPage) : PageRecord :=
  let page_images := p.images.map mkGeomInfo
  { page_number := page_num + 1
    text := strip (p.text.getD [])
    images := []
    image_metadata := some page_images
    image_count := page_images.length }

/-- The page loop of lines 161-187. -/
def plumberLoop : Nat → List PlumberPage → Except Unit (List PageRecord)
  | _, [] => Except.ok []
  | page_num, p :: ps =>
    if p.pageOk then
      match plumberLoop (page_num + 1) ps with
      | Except.ok rest => Except.ok (mkPlumberRecord page_num p :: rest)
      | Except.error e => Except.error e
    else Except.error ()

/-- The record list produced when every pdfplumber page succeeds. -/
def plumberRecords : Nat → List PlumberPage → List PageRecord
  | _, [] => []
  | page_num, p :: ps => mkPlumberRecord page_num p :: plumberRecords (page_num + 1) ps

/-- Embedding of extract_with_pdfplumber (lines 157-194).  The with
statement at line 158 closes the document on every path, success or
propagated exception. -/
def extract_with_pdfplumber (pages : List PlumberPage) : ExtractOutcome :=
  match plumberLoop 0 pages with
  | Except.ok recs => { result := Except.ok recs, closed := true }
  | Except.error e => { result := Except.error e, closed := true }

/-- A question record as built at lines 230-234 and 247-251. -/
structure Question where
  question : List Char
  images : List Char
  option_images : List (List Char)
deriving DecidableEq

/-- The mutable segmentation state of lines 207 and 215-217: the
accumulated output plus the per-page accumulator. -/
structure SegState where
  questions : List Question
  current_question : List Char
  question_images : List (List Char)
  option_images : List (List Char)
deriving DecidableEq

/-- The flush of lines 230-234: strip the accumulator, take element 0 of
the primary slot or the empty string, keep the option pool. -/
def flushQuestion (st : SegState) : Question :=
  { question := strip st.current_question
    images := st.question_images.headD []
    option_images := st.option_images }

/-- The per-line step of lines 219-244: strip the line, skip it when
empty, on a trigger flush any open accumulator and restart it from the
page image pool, otherwise append the line to an open accumulator. -/
def segLine (page_images : List (List Char)) (st : SegState)
    (rawLine : List Char) : SegState :=
  if strip rawLine = [] then st
  else if hasTrigger (strip rawLine) then
    { questions :=
        if st.current_question ≠ [] then st.questions ++ [flushQuestion st]
        else st.questions
      current_question := strip rawLine
      question_images := if page_images ≠ [] then page_images.take 1 else []
      option_images := if page_images.length > 1 then page_images.drop 1 else [] }
  else if st.current_question ≠ [] then
    { st with current_question := st.current_question ++ ' ' :: strip rawLine }
  else st

/-- One page of the loop body of lines 209-251: run the line loop with a
fresh accumulator, then flush a still-open accumulator at end of page. -/
def segPage (questions : List Question) (page : PageRecord) : List Question :=
  let st := (splitLines page.text).foldl (segLine page.images)
    { questions := questions, current_question := [], question_images := [],
      option_images := [] }
  if st.current_question ≠ [] then st.questions ++ [flushQuestion st]
  else st.questions

/-- Embedding of parse_math_questions (lines 196-254). -/
def parse_math_questions (page_data : List PageRecord) : List Question :=
  page_data.foldl segPage []

/-- The errors process_pdf can raise: FileNotFoundError (line 289),
ValueError for an unknown method (line 299), or a propagated extraction
failure. -/
inductive ProcError
  | fileNotFound
  | unknownMethod
  | extractionFailure
deriving DecidableEq

/-- Outcome of process_pdf, also recording whether a document handle was
ever opened. -/
structure ProcOutcome where
  result : Except ProcError (List Question)
  handleOpened : Bool

/-- Embedding of process_pdf (lines 277-308): check the path, dispatch
on the lowercased method name, extract, segment.  The JSON output of
lines 305-306 is an external sink and not modelled. -/
def process_pdf (fileExists : Bool) (images_dir : List Char)
    (pymupdfView : List PymupdfPage) (plumberView : List PlumberPage)
    (method : List Char) : ProcOutcome :=
  if fileExists = false then
    { result := Except.error ProcError.fileNotFound, handleOpened := false }
  else if lowerStr method = "pymupdf".data then
    match (extract_with_pymupdf images_dir pymupdfView).result with
    | Except.ok page_data =>
      { result := Except.ok (parse_math_questions page_data), handleOpened := true }
    | Except.error _ =>
      { result := Except.error ProcError.extractionFailure, handleOpened := true }
  else if lowerStr method = "pdfplumber".data then
    match (extract_with_pdfplumber plumberView).result with
    | Except.ok page_data =>
      { result := Except.ok (parse_math_questions page_data), handleOpened := true }
    | Except.error _ =>
      { result := Except.error ProcError.extractionFailure, handleOpened := true }
  else
    { result := Except.error ProcError.unknownMethod, handleOpened := false }

/-- Default record used with List.getD in indexed statements. -/
def defaultPageRecord : PageRecord :=
  { page_number := 0, text := [], images := [], image_metadata := none,
    image_count := 0 }

/-- Default page used with List.getD in indexed statements. -/
def defaultPymupdfPage : PymupdfPage := { text := [], textOk := false, images := [] }

/-! Concrete inputs used by the claim theorems and witnesses. -/

/-- A pdfplumber page carrying one embedded image. -/
def c1Page : PlumberPage :=
  { text := some "hello".data
    pageOk := true
    images := [{ x0 := some 1, y0 := none, x1 := none, y1 := none,
                 width := none, height := none }] }

/-- A PyMuPDF page carrying one decodable embedded image. -/
def c1PymPage : PymupdfPage :=
  { text := "t".data, textOk := true
    images := [{ n := 3, alpha := 0, ok := true }] }

/-- The single page of Scenario B: two lines and a two-image pool. -/
def c2Page : PageRecord :=
  { page_number := 1
    text := "Find the pattern.\nContinue: A B C ?".data
    images := ["img1".data, "img2".data]
    image_metadata := none
    image_count := 2 }

/-- A page whose loading fails, aborting the PyMuPDF extraction. -/
def c3BadPage : PymupdfPage := { text := [], textOk := false, images := [] }

/-- Scenario C: a page where one of two embedded images fails to decode,
followed by a further page. -/
def c5Pages : List PymupdfPage :=
  [{ text := "Solve this.".data, textOk := true
     images := [{ n := 3, alpha := 0, ok := false },
                { n := 3, alpha := 0, ok := true }] },
   { text := "Find x.".data, textOk := true, images := [] }]

/-- A two-page PyMuPDF document where every page succeeds. -/
def c6PymPages : List PymupdfPage :=
  [{ text := "a".data, textOk := true, images := [] },
   { text := "b".data, textOk := true, images := [] }]

/-- A two-page pdfplumber document where every page succeeds. -/
def c6PlumPages : List PlumberPage :=
  [{ text := some "a".data, pageOk := true, images := [] },
   { text := none, pageOk := true, images := [] }]

/-- A page with a trigger keyword. -/
def c7TrigPage : PageRecord :=
  { page_number := 1, text := "Find x.".data, images := [],
    image_metadata := none, image_count := 0 }

/-- A page whose text contains no trigger keyword at all. -/
def c7NoTrigPage : PageRecord :=
  { page_number := 2, text := "Hello there\nNothing here".data, images := [],
    image_metadata := none, image_count := 0 }

/-- An embedded image with four color channels and no alpha. -/
def c8Img : RawImage := { n := 4, alpha := 0, ok := true }

/-- The saved image the materializer produces from c8Img at page 0,
index 0. -/
def c8Saved : SavedImage :=
  { path := imgPath "d".data 0 0, convertedToRGB := true,
    format := ImgFormat.png }

/-- A two-page document with several embedded images, one failing. -/
def c8Pages : List PymupdfPage :=
  [{ text := "t".data, textOk := true
     images := [c8Img, { n := 1, alpha := 0, ok := false }] },
   { text := "u".data, textOk := true
     images := [{ n := 3, alpha := 1, ok := true }] }]

/-- A page used to witness segmentation determinism. -/
def c9Page : PageRecord :=
  { page_number := 1, text := "What is 2+2?".data, images := [],
    image_metadata := none, image_count := 0 }

/-- A page yielding exactly one question. -/
def c10Page : PageRecord :=
  { page_number := 1, text := "Find x.".data, images := [],
    image_metadata := none, image_count := 0 }

/-- The question parsed from c10Page. -/
def c10Question : Question :=
  { question := "Find x.".data, images := [], option_images := [] }

/-! Helper lemmas about the text utilities. -/

theorem dropWhile_head_false :
    ∀ (l : List Char) (a : Char) (t : List Char),
      List.dropWhile ws l = a :: t → ws a = false := by
  intro l
  induction l with
  | nil => intro a t h; simp [List.dropWhile] at h
  | cons c cs ih =>
    intro a t h
    rw [List.dropWhile_cons] at h
    by_cases hc : ws c
    · simp [hc] at h
      exact ih a t h
    · simp [hc] at h
      obtain ⟨rfl, -⟩ := h
      simpa using hc

theorem strip_eq_nil_iff (l : List Char) :
    strip l = [] ↔ ∀ c ∈ l, ws c = true := by
  unfold strip
  rw [List.rdropWhile_eq_nil_iff]
  constructor
  · intro h c hc
    have hsplit : c ∈ List.takeWhile ws l ++ List.dropWhile ws l := by
      rw [List.takeWhile_append_dropWhile]
      exact hc
    rcases List.mem_append.mp hsplit with h1 | h2
    · exact List.mem_takeWhile_imp h1
    · exact h c h2
  · intro h c hc
    have : c ∈ List.takeWhile ws l ++ List.dropWhile ws l := List.mem_append_right _ hc
    rw [List.takeWhile_append_dropWhile] at this
    exact h c this

theorem strip_has_nonws {l : List Char} (h : strip l ≠ []) :
    ∃ c ∈ strip l, ws c = false := by
  unfold strip at *
  obtain ⟨s, hs⟩ := List.rdropWhile_prefix (p := ws) (l := List.dropWhile ws l)
  cases hr : List.rdropWhile ws (List.dropWhile ws l) with
  | nil => exact absurd hr h
  | cons a t =>
    rw [hr] at hs
    have hda : List.dropWhile ws l = a :: (t ++ s) := by
      rw [← hs]
      simp
    have hfa : ws a = false := dropWhile_head_false l a (t ++ s) hda
    refine ⟨a, ?_, hfa⟩
    simp [hr]

/-! Helper lemmas about decimal digit strings. -/

theorem digitChar_isDigit {d : Nat} (h : d < 10) : (digitChar d).isDigit = true := by
  interval_cases d <;> decide

theorem digitChar_val {d : Nat} (h : d < 10) : (digitChar d).toNat - 48 = d := by
  interval_cases d <;> decide

theorem decVal_append_digit (l : List Char) (c : Char) :
    decVal (l ++ [c]) = decVal l * 10 + (c.toNat - 48) := by
  unfold decVal
  rw [List.foldl_append]
  simp

theorem decVal_decRepr (n : Nat) : decVal (decRepr n) = n := by
  induction n using Nat.strong_induction_on with
  | _ n ih =>
    rw [decRepr]
    split
    · next h =>
      unfold decVal
      simp [digitChar_val h]
    · next h =>
      push_neg at h
      rw [decVal_append_digit, ih (n / 10) (Nat.div_lt_self (by omega) (by omega)),
        digitChar_val (Nat.mod_lt n (by omega))]
      omega

theorem decRepr_inj {a b : Nat} (h : decRepr a = decRepr b) : a = b := by
  rw [← decVal_decRepr a, ← decVal_decRepr b, h]

theorem decRepr_digits (n : Nat) : ∀ c ∈ decRepr n, c.isDigit = true := by
  induction n using Nat.strong_induction_on with
  | _ n ih =>
    rw [decRepr]
    split
    · next h =>
      intro c hc
      simp at hc
      subst hc
      exact digitChar_isDigit h
    · next h =>
      push_neg at h
      intro c hc
      rcases List.mem_append.mp hc with h1 | h2
      · exact ih (n / 10) (Nat.div_lt_self (by omega) (by omega)) c h1
      · simp at h2
        subst h2
        exact digitChar_isDigit (Nat.mod_lt n (by omega))

theorem append_sep_inj {x : Char} (hx : x.isDigit = false) :
    ∀ (a b u v : List Char), (∀ c ∈ a, c.isDigit = true) →
      (∀ c ∈ b, c.isDigit = true) → a ++ x :: u = b ++ x :: v → a = b ∧ u = v := by
  intro a
  induction a with
  | nil =>
    intro b u v _ hb h
    cases b with
    | nil => simpa using h
    | cons d b' =>
      simp only [List.nil_append, List.cons_append, List.cons.injEq] at h
      obtain ⟨hxd, -⟩ := h
      have hd := hb d (List.mem_cons_self d b')
      rw [← hxd] at hd
      rw [hd] at hx
      cases hx
  | cons c a' ih =>
    intro b u v ha hb h
    cases b with
    | nil =>
      simp only [List.cons_append, List.nil_append, List.cons.injEq] at h
      obtain ⟨hcx, -⟩ := h
      have hc := ha c (List.mem_cons_self c a')
      rw [hcx] at hc
      rw [hc] at hx
      cases hx
    | cons d b' =>
      simp only [List.cons_append, List.cons.injEq] at h
      obtain ⟨rfl, h2⟩ := h
      obtain ⟨he, hu⟩ := ih b' u v (fun e he => ha e (List.mem_cons_of_mem c he))
        (fun e he => hb e (List.mem_cons_of_mem c he)) h2
      exact ⟨by rw [he], hu⟩

/-! Injectivity of the deterministic image file names. -/

theorem imgName_inj {pn ix pn' ix' : Nat}
    (h : imgName pn ix = imgName pn' ix') : pn = pn' ∧ ix = ix' := by
  unfold imgName at h
  simp only [List.append_assoc] at h
  have h2 := List.append_cancel_left h
  simp only [List.cons_append] at h2
  obtain ⟨hpage, htail⟩ := append_sep_inj (x := '_') (by decide) _ _ _ _
    (decRepr_digits (pn + 1)) (decRepr_digits (pn' + 1)) h2
  have hpn : pn = pn' := by
    have := decRepr_inj hpage
    omega
  simp only [List.cons.injEq, true_and] at htail
  obtain ⟨himg, -⟩ := append_sep_inj (x := '.') (by decide) _ _ _ _
    (decRepr_digits (ix + 1)) (decRepr_digits (ix' + 1)) htail
  have hix : ix = ix' := by
    have := decRepr_inj himg
    omega
  exact ⟨hpn, hix⟩

theorem imgPath_inj {dir : List Char} {pn ix pn' ix' : Nat}
    (h : imgPath dir pn ix = imgPath dir pn' ix') : pn = pn' ∧ ix = ix' := by
  unfold imgPath at h
  have h2 := List.append_cancel_left h
  exact imgName_inj (List.cons.inj h2).2

/-! Lemmas about the materializer and the per-page image loop. -/

theorem materialize_some {dir : List Char} {pn ix : Nat} {img : RawImage}
    {s : SavedImage} (h : materialize dir pn ix img = some s) :
    s.path = imgPath dir pn ix ∧ s.format = ImgFormat.png ∧
      s.convertedToRGB = decide ((img.n : Int) - (img.alpha : Int) > 3) := by
  unfold materialize at h
  by_cases hok : img.ok
  · rw [if_pos hok] at h
    obtain rfl := (Option.some.inj h).symm
    exact ⟨rfl, rfl, rfl⟩
  · rw [if_neg hok] at h
    cases h

theorem pymupdfPageImages_mem {dir : List Char} {pn : Nat} :
    ∀ (imgs : List RawImage) (ix : Nat) (x : List Char),
      x ∈ pymupdfPageImages dir pn ix imgs →
        ∃ j, ix ≤ j ∧ x = imgPath dir pn j := by
  intro imgs
  induction imgs with
  | nil =>
    intro ix x hx
    simp [pymupdfPageImages] at hx
  | cons img rest ih =>
    intro ix x hx
    cases hmat : materialize dir pn ix img with
    | none =>
      rw [pymupdfPageImages, hmat] at hx
      obtain ⟨j, hj, he⟩ := ih (ix + 1) x hx
      exact ⟨j, by omega, he⟩
    | some s =>
      rw [pymupdfPageImages, hmat] at hx
      rcases List.mem_cons.mp hx with he | hx2
      · exact ⟨ix, Nat.le_refl ix, by rw [he, (materialize_some hmat).1]⟩
      · obtain ⟨j, hj, he⟩ := ih (ix + 1) x hx2
        exact ⟨j, by omega, he⟩

theorem pymupdfPageImages_nodup {dir : List Char} {pn : Nat} :
    ∀ (imgs : List RawImage) (ix : Nat),
      (pymupdfPageImages dir pn ix imgs).Nodup := by
  intro imgs
  induction imgs with
  | nil =>
    intro ix
    simp [pymupdfPageImages]
  | cons img rest ih =>
    intro ix
    cases hmat : materialize dir pn ix img with
    | none =>
      rw [pymupdfPageImages, hmat]
      exact ih (ix + 1)
    | some s =>
      rw [pymupdfPageImages, hmat]
      refine List.nodup_cons.mpr ⟨?_, ih (ix + 1)⟩
      intro hmem
      obtain ⟨j, hj, he⟩ := pymupdfPageImages_mem rest (ix + 1) s.path hmem
      rw [(materialize_some hmat).1] at he
      have := (imgPath_inj he).2
      omega

theorem pymupdfPageImages_length {dir : List Char} {pn : Nat} :
    ∀ (imgs : List RawImage) (ix : Nat),
      (pymupdfPageImages dir pn ix imgs).length =
        (imgs.filter (fun im => im.ok)).length := by
  intro imgs
  induction imgs with
  | nil =>
    intro ix
    simp [pymupdfPageImages]
  | cons img rest ih =>
    intro ix
    by_cases hok : img.ok
    · rw [pymupdfPageImages]
      simp [materialize, hok, List.filter_cons, ih (ix + 1)]
    · rw [pymupdfPageImages]
      simp [materialize, hok, List.filter_cons, ih (ix + 1)]

/-! Lemmas about the page loops of the two extraction variants. -/

theorem pymupdfLoop_eq_ok {dir : List Char} :
    ∀ (ps : List PymupdfPage) (pn : Nat) (recs : List PageRecord),
      pymupdfLoop dir pn ps = Except.ok recs →
        recs = pymupdfRecords dir pn ps := by
  intro ps
  induction ps with
  | nil =>
    intro pn recs h
    rw [pymupdfLoop] at h
    obtain rfl := (Except.ok.inj h).symm
    rfl
  | cons p rest ih =>
    intro pn recs h
    rw [pymupdfLoop] at h
    by_cases htx : p.textOk
    · rw [if_pos htx] at h
      cases hrec : pymupdfLoop dir (pn + 1) rest with
      | ok rs =>
        rw [hrec] at h
        obtain rfl := (Except.ok.inj h).symm
        rw [pymupdfRecords, ih (pn + 1) rs hrec]
      | error e =>
        rw [hrec] at h
        cases h
    · rw [if_neg htx] at h
      cases h

theorem pymupdfLoop_ok {dir : List Char} :
    ∀ (ps : List PymupdfPage) (pn : Nat), (∀ p ∈ ps, p.textOk = true) →
      pymupdfLoop dir pn ps = Except.ok (pymupdfRecords dir pn ps) := by
  intro ps
  induction ps with
  | nil =>
    intro pn _
    rfl
  | cons p rest ih =>
    intro pn h
    rw [pymupdfLoop, if_pos (h p (List.mem_cons_self p rest)),
      ih (pn + 1) (fun q hq => h q (List.mem_cons_of_mem p hq))]
    rfl

theorem extract_with_pymupdf_ok {dir : List Char} {pages : List PymupdfPage}
    (h : ∀ p ∈ pages, p.textOk = true) :
    extract_with_pymupdf dir pages =
      { result := Except.ok (pymupdfRecords dir 0 pages), closed := true } := by
  unfold extract_with_pymupdf
  rw [pymupdfLoop_ok pages 0 h]

theorem extract_with_pymupdf_result_ok {dir : List Char}
    {pages : List PymupdfPage} {recs : List PageRecord}
    (h : (extract_with_pymupdf dir pages).result = Except.ok recs) :
    recs = pymupdfRecords dir 0 pages ∧
      (extract_with_pymupdf dir pages).closed = true := by
  cases hloop : pymupdfLoop dir 0 pages with
  | ok rs =>
    have he : extract_with_pymupdf dir pages =
        { result := Except.ok rs, closed := true } := by
      unfold extract_with_pymupdf
      rw [hloop]
    rw [he] at h
    simp only at h
    have hr : rs = recs := Except.ok.inj h
    subst hr
    rw [he]
    exact ⟨pymupdfLoop_eq_ok pages 0 rs hloop, rfl⟩
  | error e =>
    have he : extract_with_pymupdf dir pages =
        { result := Except.error e, closed := false } := by
      unfold extract_with_pymupdf
      rw [hloop]
    rw [he] at h
    cases h

theorem pymupdfRecords_length {dir : List Char} :
    ∀ (ps : List PymupdfPage) (pn : Nat),
      (pymupdfRecords dir pn ps).length = ps.length := by
  intro ps
  induction ps with
  | nil => intro pn; rfl
  | cons p rest ih =>
    intro pn
    rw [pymupdfRecords]
    simp [ih (pn + 1)]

theorem pymupdfRecords_map_page_number {dir : List Char} :
    ∀ (ps : List PymupdfPage) (pn : Nat),
      (pymupdfRecords dir pn ps).map (fun r => r.page_number) =
        List.range' (pn + 1) ps.length := by
  intro ps
  induction ps with
  | nil => intro pn; rfl
  | cons p rest ih =>
    intro pn
    rw [pymupdfRecords]
    simp only [List.map_cons, List.length_cons, List.range'_succ, ih (pn + 1)]
    rfl

theorem pymupdfRecords_mem {dir : List Char} :
    ∀ (ps : List PymupdfPage) (pn : Nat) (r : PageRecord),
      r ∈ pymupdfRecords dir pn ps →
        ∃ pn' p, r = mkPymupdfRecord dir pn' p := by
  intro ps
  induction ps with
  | nil =>
    intro pn r h
    simp [pymupdfRecords] at h
  | cons p rest ih =>
    intro pn r h
    rw [pymupdfRecords] at h
    rcases List.mem_cons.mp h with he | h2
    · exact ⟨pn, p, he⟩
    · exact ih (pn + 1) r h2

theorem plumberLoop_eq_ok :
    ∀ (ps : List PlumberPage) (pn : Nat) (recs : List PageRecord),
      plumberLoop pn ps = Except.ok recs → recs = plumberRecords pn ps := by
  intro ps
  induction ps with
  | nil =>
    intro pn recs h
    rw [plumberLoop] at h
    obtain rfl := (Except.ok.inj h).symm
    rfl
  | cons p rest ih =>
    intro pn recs h
    rw [plumberLoop] at h
    by_cases hok : p.pageOk
    · rw [if_pos hok] at h
      cases hrec : plumberLoop (pn + 1) rest with
      | ok rs =>
        rw [hrec] at h
        obtain rfl := (Except.ok.inj h).symm
        rw [plumberRecords, ih (pn + 1) rs hrec]
      | error e =>
        rw [hrec] at h
        cases h
    · rw [if_neg hok] at h
      cases h

theorem plumberLoop_ok :
    ∀ (ps : List PlumberPage) (pn : Nat), (∀ p ∈ ps, p.pageOk = true) →
      plumberLoop pn ps = Except.ok (plumberRecords pn ps) := by
  intro ps
  induction ps with
  | nil => intro pn _; rfl
  | cons p rest ih =>
    intro pn h
    rw [plumberLoop, if_pos (h p (List.mem_cons_self p rest)),
      ih (pn + 1) (fun q hq => h q (List.mem_cons_of_mem p hq))]
    rfl

theorem extract_with_pdfplumber_result_ok {pages : List PlumberPage}
    {recs : List PageRecord}
    (h : (extract_with_pdfplumber pages).result = Except.ok recs) :
    recs = plumberRecords 0 pages := by
  cases hloop : plumberLoop 0 pages with
  | ok rs =>
    have he : extract_with_pdfplumber pages =
        { result := Except.ok rs, closed := true } := by
      unfold extract_with_pdfplumber
      rw [hloop]
    rw [he] at h
    simp only at h
    have hr : rs = recs := Except.ok.inj h
    subst hr
    exact plumberLoop_eq_ok pages 0 rs hloop
  | error e =>
    have he : extract_with_pdfplumber pages =
        { result := Except.error e, closed := true } := by
      unfold extract_with_pdfplumber
      rw [hloop]
    rw [he] at h
    cases h

theorem plumberRecords_length :
    ∀ (ps : List PlumberPage) (pn : Nat),
      (plumberRecords pn ps).length = ps.length := by
  intro ps
  induction ps with
  | nil => intro pn; rfl
  | cons p rest ih =>
    intro pn
    rw [plumberRecords]
    simp [ih (pn + 1)]

theorem plumberRecords_map_page_number :
    ∀ (ps : List PlumberPage) (pn : Nat),
      (plumberRecords pn ps).map (fun r => r.page_number) =
        List.range' (pn + 1) ps.length := by
  intro ps
  induction ps with
  | nil => intro pn; rfl
  | cons p rest ih =>
    intro pn
    rw [plumberRecords]
    simp only [List.map_cons, List.length_cons, List.range'_succ, ih (pn + 1)]
    rfl

theorem plumberRecords_mem :
    ∀ (ps : List PlumberPage) (pn : Nat) (r : PageRecord),
      r ∈ plumberRecords pn ps → ∃ pn' p, r = mkPlumberRecord pn' p := by
  intro ps
  induction ps with
  | nil =>
    intro pn r h
    simp [plumberRecords] at h
  | cons p rest ih =>
    intro pn r h
    rw [plumberRecords] at h
    rcases List.mem_cons.mp h with he | h2
    · exact ⟨pn, p, he⟩
    · exact ih (pn + 1) r h2

/-! No two saved image paths of one rasterizing run collide. -/

theorem pymupdfRecords_flat_mem {dir : List Char} :
    ∀ (ps : List PymupdfPage) (pn : Nat) (x : List Char),
      x ∈ ((pymupdfRecords dir pn ps).map (fun r => r.images)).flatten →
        ∃ q j, pn ≤ q ∧ x = imgPath dir q j := by
  intro ps
  induction ps with
  | nil =>
    intro pn x hx
    simp [pymupdfRecords] at hx
  | cons p rest ih =>
    intro pn x hx
    rw [pymupdfRecords] at hx
    simp only [List.map_cons, List.flatten_cons] at hx
    rcases List.mem_append.mp hx with h1 | h2
    · have h1' : x ∈ pymupdfPageImages dir pn 0 p.images := h1
      obtain ⟨j, -, he⟩ := pymupdfPageImages_mem p.images 0 x h1'
      exact ⟨pn, j, Nat.le_refl pn, he⟩
    · obtain ⟨q, j, hq, he⟩ := ih (pn + 1) x h2
      exact ⟨q, j, by omega, he⟩

theorem pymupdfRecords_flat_nodup {dir : List Char} :
    ∀ (ps : List PymupdfPage) (pn : Nat),
      (((pymupdfRecords dir pn ps).map (fun r => r.images)).flatten).Nodup := by
  intro ps
  induction ps with
  | nil =>
    intro pn
    simp [pymupdfRecords]
  | cons p rest ih =>
    intro pn
    rw [pymupdfRecords]
    simp only [List.map_cons, List.flatten_cons]
    rw [List.nodup_append]
    refine ⟨pymupdfPageImages_nodup p.images 0, ih (pn + 1), ?_⟩
    intro x hx hx2
    have hx' : x ∈ pymupdfPageImages dir pn 0 p.images := hx
    obtain ⟨j, -, he⟩ := pymupdfPageImages_mem p.images 0 x hx'
    obtain ⟨q, j', hq, he'⟩ := pymupdfRecords_flat_mem rest (pn + 1) x hx2
    rw [he] at he'
    have := (imgPath_inj he').1
    omega

/-! Invariants of the question segmenter. -/

/-- Every accumulated question has non-empty text. -/
def goodQuestions (qs : List Question) : Prop := ∀ q ∈ qs, q.question ≠ []

/-- The accumulator is empty or contains a non-whitespace character. -/
def goodCur (cur : List Char) : Prop := cur = [] ∨ ∃ c ∈ cur, ws c = false

theorem flushQuestion_ne_nil {st : SegState} (h1 : st.current_question ≠ [])
    (h2 : goodCur st.current_question) : (flushQuestion st).question ≠ [] := by
  rcases h2 with h | ⟨c, hc, hcf⟩
  · exact absurd h h1
  · unfold flushQuestion
    simp only
    intro hstrip
    rw [strip_eq_nil_iff] at hstrip
    rw [hstrip c hc] at hcf
    cases hcf

theorem segLine_invariant {imgs : List (List Char)} {st : SegState}
    {raw : List Char}
    (h : goodQuestions st.questions ∧ goodCur st.current_question) :
    goodQuestions (segLine imgs st raw).questions ∧
      goodCur (segLine imgs st raw).current_question := by
  obtain ⟨hq, hc⟩ := h
  unfold segLine
  by_cases h1 : strip raw = []
  · rw [if_pos h1]
    exact ⟨hq, hc⟩
  · rw [if_neg h1]
    by_cases h2 : hasTrigger (strip raw)
    · rw [if_pos h2]
      constructor
      · by_cases h3 : st.current_question = []
        · simp only [h3, ne_eq, not_true_eq_false, if_false]
          exact hq
        · simp only [ne_eq, h3, not_false_eq_true, if_true]
          intro q hqmem
          rcases List.mem_append.mp hqmem with hm | hm
          · exact hq q hm
          · rw [List.mem_singleton.mp hm]
            exact flushQuestion_ne_nil h3 hc
      · exact Or.inr (strip_has_nonws h1)
    · rw [if_neg h2]
      by_cases h3 : st.current_question = []
      · simp only [h3, ne_eq, not_true_eq_false, if_false]
        exact ⟨hq, Or.inl rfl⟩
      · simp only [ne_eq, h3, not_false_eq_true, if_true]
        refine ⟨hq, Or.inr ?_⟩
        rcases hc with hc0 | ⟨c, hcm, hcf⟩
        · exact absurd hc0 h3
        · exact ⟨c, List.mem_append_left _ hcm, hcf⟩

theorem foldl_segLine_invariant {imgs : List (List Char)} :
    ∀ (lines : List (List Char)) (st : SegState),
      goodQuestions st.questions ∧ goodCur st.current_question →
        goodQuestions ((lines.foldl (segLine imgs) st).questions) ∧
          goodCur ((lines.foldl (segLine imgs) st).current_question) := by
  intro lines
  induction lines with
  | nil => intro st h; exact h
  | cons l rest ih =>
    intro st h
    rw [List.foldl_cons]
    exact ih (segLine imgs st l) (segLine_invariant h)

theorem segPage_good {qs : List Question} {page : PageRecord}
    (h : goodQuestions qs) : goodQuestions (segPage qs page) := by
  unfold segPage
  have hinv := @foldl_segLine_invariant page.images
    (splitLines page.text)
    { questions := qs, current_question := [], question_images := [],
      option_images := [] } ⟨h, Or.inl rfl⟩
  set st := (splitLines page.text).foldl (segLine page.images)
    { questions := qs, current_question := [], question_images := [],
      option_images := [] } with hst
  by_cases h3 : st.current_question = []
  · simp only [h3, ne_eq, not_true_eq_false, if_false]
    exact hinv.1
  · simp only [ne_eq, h3, not_false_eq_true, if_true]
    intro q hqmem
    rcases List.mem_append.mp hqmem with hm | hm
    · exact hinv.1 q hm
    · rw [List.mem_singleton.mp hm]
      exact flushQuestion_ne_nil h3 hinv.2

theorem parse_good :
    ∀ (pages : List PageRecord) (qs : List Question), goodQuestions qs →
      goodQuestions (pages.foldl segPage qs) := by
  intro pages
  induction pages with
  | nil => intro qs h; exact h
  | cons p rest ih =>
    intro qs h
    rw [List.foldl_cons]
    exact ih (segPage qs p) (segPage_good h)

/-! A page without trigger keywords contributes nothing. -/

theorem segLine_noop {imgs : List (List Char)} {raw : List Char}
    (h : hasTrigger (strip raw) = false) (st : SegState)
    (hcur : st.current_question = []) : segLine imgs st raw = st := by
  unfold segLine
  by_cases h1 : strip raw = []
  · rw [if_pos h1]
  · rw [if_neg h1, h]
    simp only [Bool.false_eq_true, if_false, hcur, ne_eq, not_true_eq_false,
      if_false]

theorem foldl_segLine_noop {imgs : List (List Char)} :
    ∀ (lines : List (List Char)) (st : SegState),
      st.current_question = [] →
      (∀ raw ∈ lines, hasTrigger (strip raw) = false) →
      lines.foldl (segLine imgs) st = st := by
  intro lines
  induction lines with
  | nil => intro st _ _; rfl
  | cons l rest ih =>
    intro st hcur h
    rw [List.foldl_cons, segLine_noop (h l (List.mem_cons_self l rest)) st hcur,
      ih st hcur (fun raw hr => h raw (List.mem_cons_of_mem l hr))]

theorem segPage_noop {qs : List Question} {page : PageRecord}
    (h : ∀ raw ∈ splitLines page.text, hasTrigger (strip raw) = false) :
    segPage qs page = qs := by
  unfold segPage
  rw [foldl_segLine_noop (splitLines page.text) _ rfl h]
  simp

theorem pymupdfRecords_getD {dir : List Char} :
    ∀ (ps : List PymupdfPage) (pn i : Nat), i < ps.length →
      (pymupdfRecords dir pn ps).getD i defaultPageRecord =
        mkPymupdfRecord dir (pn + i) (ps.getD i defaultPymupdfPage) := by
  intro ps
  induction ps with
  | nil =>
    intro pn i hi
    simp at hi
  | cons p rest ih =>
    intro pn i hi
    cases i with
    | zero =>
      rw [pymupdfRecords]
      simp [List.getD_cons_zero]
    | succ j =>
      rw [pymupdfRecords]
      simp only [List.getD_cons_succ]
      have hj : j < rest.length := by
        simp at hi
        omega
      rw [ih (pn + 1) j hj]
      have : pn + 1 + j = pn + (j + 1) := by omega
      rw [this]

/-! The claims. -/

/-- Claim C1 is false as stated: the geometry-only (pdfplumber) variant
stores an empty images list but counts the image metadata entries, so a
page with one embedded image yields a record with image_count 1 and an
empty images field. -/
theorem C1_counterexample :
    (extract_with_pdfplumber [c1Page]).result =
      Except.ok [mkPlumberRecord 0 c1Page] ∧
    (mkPlumberRecord 0 c1Page).image_count = 1 ∧
    (mkPlumberRecord 0 c1Page).images.length = 0 ∧
    (mkPlumberRecord 0 c1Page).image_count ≠
      (mkPlumberRecord 0 c1Page).images.length := by
  refine ⟨rfl, rfl, rfl, ?_⟩
  decide

/-- Claim C1 (amended): records of the rasterizing (PyMuPDF) variant
always satisfy image_count = length(images); records of the
geometry-only (pdfplumber) variant always have an empty images field,
and their image_count equals the length of image_metadata instead. -/
theorem C1_thm :
    (∀ (dir : List Char) (pages : List PymupdfPage) (recs : List PageRecord),
        (extract_with_pymupdf dir pages).result = Except.ok recs →
        ∀ r ∈ recs, r.image_count = r.images.length) ∧
    (∀ (pages : List PlumberPage) (recs : List PageRecord),
        (extract_with_pdfplumber pages).result = Except.ok recs →
        ∀ r ∈ recs, r.images = [] ∧
          r.image_count = (r.image_metadata.getD []).length) := by
  constructor
  · intro dir pages recs h r hr
    obtain ⟨hrec, -⟩ := extract_with_pymupdf_result_ok h
    rw [hrec] at hr
    obtain ⟨pn, p, hre⟩ := pymupdfRecords_mem pages 0 r hr
    rw [hre]
    rfl
  · intro pages recs h r hr
    rw [extract_with_pdfplumber_result_ok h] at hr
    obtain ⟨pn, p, hre⟩ := plumberRecords_mem pages 0 r hr
    rw [hre]
    exact ⟨rfl, rfl⟩

theorem C1_witness :
    (∀ r ∈ pymupdfRecords "d".data 0 [c1PymPage],
      r.image_count = r.images.length) ∧
    (∀ r ∈ plumberRecords 0 [c1Page], r.images = [] ∧
      r.image_count = (r.image_metadata.getD []).length) := by
  constructor
  · exact C1_thm.1 "d".data [c1PymPage] _
      (by rw [extract_with_pymupdf_ok (by decide)])
  · exact C1_thm.2 [c1Page] _
      (by unfold extract_with_pdfplumber
          rw [plumberLoop_ok [c1Page] 0 (by decide)])

/-- Claim C2 is false as stated: the second line, Continue: A B C ?,
contains no trigger keyword, so it is appended to the open accumulator
instead of starting a second question; the page yields one Question, not
two. -/
theorem C2_counterexample :
    parse_math_questions [c2Page] ≠
      [{ question := "Find the pattern.".data, images := "img1".data,
         option_images := ["img2".data] },
       { question := "Continue: A B C ?".data, images := "img1".data,
         option_images := ["img2".data] }] ∧
    (parse_math_questions [c2Page]).length = 1 := by
  constructor
  · decide
  · decide

/-- Claim C2 (amended): for the single page with lines Find the pattern.
and Continue: A B C ? and image pool [img1, img2], segmentation emits
exactly one Question, whose text is the two lines joined by a space,
whose primary image is img1 (element 0 of the pool) and whose option
images are [img2] (the pool from index 1 onward), because the second
line contains no trigger keyword. -/
theorem C2_thm :
    parse_math_questions [c2Page] =
      [{ question := "Find the pattern. Continue: A B C ?".data
         images := "img1".data
         option_images := ["img2".data] }] := by
  decide

/-- Claim C3 is false as stated: when loading a page raises, the PyMuPDF
extractor propagates the error through the handler at line 138 without
ever reaching doc.close() at line 134, so the handle is not released on
that exit path. -/
theorem C3_counterexample :
    (extract_with_pymupdf "d".data [c3BadPage]).result = Except.error () ∧
    (extract_with_pymupdf "d".data [c3BadPage]).closed = false :=
  ⟨rfl, rfl⟩

/-- Claim C3 (amended): the PyMuPDF extractor releases the document
handle only on the success path; on a failure while processing a page
the error propagates with the handle still open.  The pdfplumber
extractor, which scopes the handle with a with statement, releases it on
every exit path. -/
theorem C3_thm :
    (∀ (dir : List Char) (pages : List PymupdfPage) (recs : List PageRecord),
        (extract_with_pymupdf dir pages).result = Except.ok recs →
        (extract_with_pymupdf dir pages).closed = true) ∧
    (∀ pages : List PlumberPage, (extract_with_pdfplumber pages).closed = true) := by
  constructor
  · intro dir pages recs h
    exact (extract_with_pymupdf_result_ok h).2
  · intro pages
    unfold extract_with_pdfplumber
    cases plumberLoop 0 pages with
    | ok recs => rfl
    | error e => rfl

theorem C3_witness :
    (extract_with_pymupdf "d".data []).closed = true ∧
    (extract_with_pdfplumber []).closed = true :=
  ⟨C3_thm.1 "d".data [] [] rfl, C3_thm.2 []⟩

/-- Claim C4: if the input path does not exist, process_pdf fails with
FileNotFoundError and no document handle is opened; if the path exists
and the lowercased method string is neither pymupdf nor pdfplumber,
process_pdf fails with the unknown-method ValueError and no document
handle is opened. -/
theorem C4_thm :
    ∀ (fileExists : Bool) (dir : List Char) (pym : List PymupdfPage)
      (plumber : List PlumberPage) (method : List Char),
      (fileExists = false →
        (process_pdf fileExists dir pym plumber method).result =
          Except.error ProcError.fileNotFound ∧
        (process_pdf fileExists dir pym plumber method).handleOpened = false) ∧
      (fileExists = true → lowerStr method ≠ "pymupdf".data →
        lowerStr method ≠ "pdfplumber".data →
        (process_pdf fileExists dir pym plumber method).result =
          Except.error ProcError.unknownMethod ∧
        (process_pdf fileExists dir pym plumber method).handleOpened = false) := by
  intro fileExists dir pym plumber method
  constructor
  · intro h
    subst h
    unfold process_pdf
    exact ⟨rfl, rfl⟩
  · intro h h1 h2
    subst h
    unfold process_pdf
    rw [if_neg (by simp), if_neg h1, if_neg h2]
    exact ⟨rfl, rfl⟩

theorem C4_witness :
    ((process_pdf false "d".data [] [] "pymupdf".data).result =
      Except.error ProcError.fileNotFound ∧
     (process_pdf false "d".data [] [] "pymupdf".data).handleOpened = false) ∧
    ((process_pdf true "d".data [] [] "xml".data).result =
      Except.error ProcError.unknownMethod ∧
     (process_pdf true "d".data [] [] "xml".data).handleOpened = false) :=
  ⟨(C4_thm false "d".data [] [] "pymupdf".data).1 rfl,
   (C4_thm true "d".data [] [] "xml".data).2 rfl (by decide) (by decide)⟩

/-- Claim C5: when every page of the document loads, the failure of any
number of embedded images is absorbed per image: extraction succeeds,
one record per page, and each record keeps exactly the successfully
materialized images, with image_count equal to their number. -/
theorem C5_thm :
    ∀ (dir : List Char) (pages : List PymupdfPage),
      (∀ p ∈ pages, p.textOk = true) →
      ∃ recs, (extract_with_pymupdf dir pages).result = Except.ok recs ∧
        recs.length = pages.length ∧
        ∀ i, i < pages.length →
          (recs.getD i defaultPageRecord).images.length =
            ((pages.getD i defaultPymupdfPage).images.filter
              (fun im => im.ok)).length ∧
          (recs.getD i defaultPageRecord).image_count =
            ((pages.getD i defaultPymupdfPage).images.filter
              (fun im => im.ok)).length := by
  intro dir pages h
  refine ⟨pymupdfRecords dir 0 pages, ?_, pymupdfRecords_length pages 0, ?_⟩
  · rw [extract_with_pymupdf_ok h]
  · intro i hi
    rw [pymupdfRecords_getD pages 0 i hi]
    simp only [Nat.zero_add]
    unfold mkPymupdfRecord
    simp only
    constructor
    · exact pymupdfPageImages_length _ 0
    · exact pymupdfPageImages_length _ 0

theorem C5_witness :
    (∀ p ∈ c5Pages, p.textOk = true) ∧
    (∃ recs, (extract_with_pymupdf "d".data c5Pages).result = Except.ok recs ∧
      recs.length = c5Pages.length ∧
      ∀ i, i < c5Pages.length →
        (recs.getD i defaultPageRecord).images.length =
          ((c5Pages.getD i defaultPymupdfPage).images.filter
            (fun im => im.ok)).length ∧
        (recs.getD i defaultPageRecord).image_count =
          ((c5Pages.getD i defaultPymupdfPage).images.filter
            (fun im => im.ok)).length) :=
  ⟨by decide, C5_thm "d".data c5Pages (by decide)⟩

/-- Claim C6: when an extraction call of either variant returns, it
returns one record per document page, and the page_number fields are
exactly 1, 2, ..., pageCount in order, with no gaps and no repeats. -/
theorem C6_thm :
    (∀ (dir : List Char) (pages : List PymupdfPage) (recs : List PageRecord),
        (extract_with_pymupdf dir pages).result = Except.ok recs →
        recs.length = pages.length ∧
        recs.map (fun r => r.page_number) = List.range' 1 pages.length) ∧
    (∀ (pages : List PlumberPage) (recs : List PageRecord),
        (extract_with_pdfplumber pages).result = Except.ok recs →
        recs.length = pages.length ∧
        recs.map (fun r => r.page_number) = List.range' 1 pages.length) := by
  constructor
  · intro dir pages recs h
    obtain ⟨hrec, -⟩ := extract_with_pymupdf_result_ok h
    rw [hrec]
    exact ⟨pymupdfRecords_length pages 0, pymupdfRecords_map_page_number pages 0⟩
  · intro pages recs h
    rw [extract_with_pdfplumber_result_ok h]
    exact ⟨plumberRecords_length pages 0, plumberRecords_map_page_number pages 0⟩

theorem C6_witness :
    ((pymupdfRecords "d".data 0 c6PymPages).length = c6PymPages.length ∧
     (pymupdfRecords "d".data 0 c6PymPages).map (fun r => r.page_number) =
       List.range' 1 c6PymPages.length) ∧
    ((plumberRecords 0 c6PlumPages).length = c6PlumPages.length ∧
     (plumberRecords 0 c6PlumPages).map (fun r => r.page_number) =
       List.range' 1 c6PlumPages.length) :=
  ⟨C6_thm.1 "d".data c6PymPages _
     (by rw [extract_with_pymupdf_ok (by decide)]),
   C6_thm.2 c6PlumPages _
     (by unfold extract_with_pdfplumber
         rw [plumberLoop_ok c6PlumPages 0 (by decide)])⟩

/-- Claim C7: a page none of whose lines contains a trigger keyword
(case-insensitive substring over the keyword set) contributes no
Question: removing it from the input leaves the segmentation output
unchanged, and in particular it emits zero Questions on its own. -/
theorem C7_thm :
    ∀ (pre post : List PageRecord) (page : PageRecord),
      (∀ raw ∈ splitLines page.text, hasTrigger (strip raw) = false) →
      parse_math_questions (pre ++ page :: post) =
        parse_math_questions (pre ++ post) ∧
      parse_math_questions [page] = [] := by
  intro pre post page h
  constructor
  · unfold parse_math_questions
    rw [List.foldl_append, List.foldl_cons, segPage_noop h, List.foldl_append]
  · unfold parse_math_questions
    rw [List.foldl_cons, segPage_noop h]
    rfl

theorem C7_witness :
    (∀ raw ∈ splitLines c7NoTrigPage.text, hasTrigger (strip raw) = false) ∧
    (parse_math_questions [c7TrigPage, c7NoTrigPage, c7TrigPage] =
      parse_math_questions [c7TrigPage, c7TrigPage] ∧
     parse_math_questions [c7NoTrigPage] = []) :=
  ⟨by decide, C7_thm [c7TrigPage] [c7TrigPage] c7NoTrigPage (by decide)⟩

/-- Claim C8: every successfully materialized image is encoded as PNG,
is converted to RGB beforehand whenever its channel count minus its
alpha flag exceeds 3, and is saved under
images_dir/page_{N}_image_{M}.png with 1-based page and index numbers;
consequently the saved paths of one successful extraction run are
pairwise distinct. -/
theorem C8_thm :
    (∀ (dir : List Char) (pn ix : Nat) (img : RawImage) (s : SavedImage),
        materialize dir pn ix img = some s →
        s.format = ImgFormat.png ∧
        ((img.n : Int) - (img.alpha : Int) > 3 → s.convertedToRGB = true) ∧
        s.path = dir ++ '/' :: ("page_".data ++ decRepr (pn + 1) ++
          "_image_".data ++ decRepr (ix + 1) ++ ".png".data)) ∧
    (∀ (dir : List Char) (pages : List PymupdfPage) (recs : List PageRecord),
        (extract_with_pymupdf dir pages).result = Except.ok recs →
        ((recs.map (fun r => r.images)).flatten).Nodup) := by
  constructor
  · intro dir pn ix img s h
    obtain ⟨hpath, hfmt, hconv⟩ := materialize_some h
    refine ⟨hfmt, ?_, ?_⟩
    · intro hgt
      rw [hconv]
      exact decide_eq_true hgt
    · rw [hpath]
      rfl
  · intro dir pages recs h
    obtain ⟨hrec, -⟩ := extract_with_pymupdf_result_ok h
    rw [hrec]
    exact pymupdfRecords_flat_nodup pages 0

theorem C8_witness :
    (c8Saved.format = ImgFormat.png ∧ c8Saved.convertedToRGB = true ∧
     c8Saved.path = "d".data ++ '/' :: ("page_".data ++ decRepr 1 ++
       "_image_".data ++ decRepr 1 ++ ".png".data)) ∧
    (((pymupdfRecords "d".data 0 c8Pages).map (fun r => r.images)).flatten).Nodup := by
  constructor
  · obtain ⟨hfmt, hconv, hpath⟩ :=
      C8_thm.1 "d".data 0 0 c8Img c8Saved rfl
    exact ⟨hfmt, hconv (by decide), hpath⟩
  · exact C8_thm.2 "d".data c8Pages _
      (by rw [extract_with_pymupdf_ok (by decide)])

/-- Claim C9: segmentation is deterministic: its output is a pure
function of the input record sequence, so two runs on the same sequence
produce identical Question sequences. -/
theorem C9_thm :
    ∀ (pages pages' : List PageRecord),
      parse_math_questions pages = parse_math_questions pages ∧
      (pages = pages' →
        parse_math_questions pages = parse_math_questions pages') := by
  intro pages pages'
  exact ⟨rfl, fun h => by rw [h]⟩

theorem C9_witness :
    parse_math_questions [c9Page] = parse_math_questions [c9Page] :=
  (C9_thm [c9Page] [c9Page]).2 rfl

/-- Claim C10: every Question the segmenter emits has non-empty text: a
question is only flushed from a non-empty accumulator, whose stripped
text contains a non-whitespace character. -/
theorem C10_thm :
    ∀ (pages : List PageRecord) (q : Question),
      q ∈ parse_math_questions pages → q.question ≠ [] := by
  intro pages q hq
  exact parse_good pages [] (fun _ h => absurd h (List.not_mem_nil _)) q hq

theorem C10_witness :
    c10Question ∈ parse_math_questions [c10Page] ∧
    c10Question.question ≠ [] :=
  ⟨by decide, C10_thm [c10Page] c10Question (by decide)⟩

end PdfExtractor
